import Mathlib

/-!
Verification of the Serie AI prediction bot core (`src/bot.py`, `src/database.py`).

The Python code is shallowly embedded in Lean:
* Python `float` arithmetic is modelled exactly over `ℚ`;
* Python's `round(x, n)` (round-half-to-even on the scaled value) is
  modelled by `rnd_half_even` / `round_dp`;
* the SQLite tables are modelled as lists of rows with explicit state
  passing; `datetime.now()` timestamps are an explicit `created_at`
  argument;
* the `random.uniform` draws of `DataManager.analyze_match` are explicit
  parameters (`jh ja` for the goal jitter, `u1 uX u2` for the three
  bookmaker-margin draws), mirroring their order of use in the source.
-/

/-- Round-half-to-even to the nearest integer, as Python's builtin `round`
does (banker's rounding), modelled on exact rationals. -/
def rnd_half_even (x : ℚ) : ℤ :=
  let f := ⌊x⌋
  let r := x - f
  if r < 1/2 then f
  else if 1/2 < r then f + 1
  else if f % 2 = 0 then f else f + 1

/-- Python's `round(x, n)`: round-half-to-even at `n` decimal digits. -/
def round_dp (n : ℕ) (x : ℚ) : ℚ :=
  (rnd_half_even (x * 10 ^ n) : ℚ) / 10 ^ n

/-- The team score `sum(ord(c) for c in s.lower()) % 100` from
`DataManager.analyze_match` (bot.py lines 495-496). -/
def teamScore (s : String) : ℕ :=
  (s.toLower.data.map Char.toNat).sum % 100

/-- The probability pipeline of `DataManager.analyze_match`
(bot.py lines 498-511): degenerate-score guard, raw probabilities,
draw floor, redistribution and renormalization.  Returns the unrounded
`(home_prob, draw_prob, away_prob)`. -/
def analyzeProbs (hs as_ : ℕ) : ℚ × ℚ × ℚ :=
  let scores : ℚ × ℚ := if hs + as_ = 0 then (50, 50) else ((hs : ℚ), (as_ : ℚ))
  let h := scores.1
  let a := scores.2
  let home_prob := h / (h + a) * 100
  let away_prob := a / (h + a) * 100
  let draw_prob := max 20 (100 - home_prob - away_prob)
  let home_prob2 := home_prob - draw_prob / 3
  let away_prob2 := away_prob - draw_prob / 3
  let total := home_prob2 + draw_prob + away_prob2
  (home_prob2 / total * 100, draw_prob / total * 100, away_prob2 / total * 100)

/-- The prediction / confidence selection of `DataManager.analyze_match`
(bot.py lines 513-521): sequential strict comparisons, falling through to
the away outcome `"2"`. -/
def predConf (hp dp ap : ℚ) : String × ℚ :=
  if hp > ap ∧ hp > dp then ("1", hp)
  else if dp > hp ∧ dp > ap then ("X", dp)
  else ("2", ap)

/-- Fair odds `round(100 / p, 2) if p > 0 else 0` (bot.py lines 526-528). -/
def fairOdds (p : ℚ) : ℚ :=
  if p > 0 then round_dp 2 (100 / p) else 0

/-- The `probabilities` sub-dictionary of the analysis result (bot.py 541-545). -/
structure Probabilities where
  home : ℚ
  draw : ℚ
  away : ℚ
deriving DecidableEq, Repr

/-- The `goals` sub-dictionary of the analysis result (bot.py 548-552). -/
structure Goals where
  home : ℤ
  away : ℤ
  total : ℤ
deriving DecidableEq, Repr

/-- The `value_bet` sub-dictionary of the analysis result (bot.py 553-560). -/
structure ValueBet where
  market : String
  selection : String
  odds : ℚ
  edge : ℚ
  fair_odds : ℚ
  stake : String
deriving DecidableEq, Repr

/-- The dictionary returned by `DataManager.analyze_match` (bot.py 540-562). -/
structure AnalysisResult where
  probabilities : Probabilities
  prediction : String
  confidence : ℚ
  goals : Goals
  value_bet : ValueBet
  league : String
deriving DecidableEq, Repr

/-- Body of `DataManager.analyze_match` after the team scores have been
computed (bot.py 498-562).  `jh ja` are the `random.uniform(0, 1.5)` /
`random.uniform(0, 1.2)` goal jitters; `u1 uX u2` are the three
`random.uniform(0.92, 0.97)` bookmaker-margin draws, in the order the
source draws them for the `'1'`, `'X'`, `'2'` market odds. -/
def analyze_core (hs as_ : ℕ) (league : String) (jh ja u1 uX u2 : ℚ) :
    AnalysisResult :=
  let P := analyzeProbs hs as_
  let home_prob := P.1
  let draw_prob := P.2.1
  let away_prob := P.2.2
  let pc := predConf home_prob draw_prob away_prob
  let prediction := pc.1
  let confidence := pc.2
  let home_goals := max 0 (rnd_half_even ((hs : ℚ) / 100 * (5/2) + jh))
  let away_goals := max 0 (rnd_half_even ((as_ : ℚ) / 100 * (9/5) + ja))
  let fair_odds_home := fairOdds home_prob
  let fair_odds_draw := fairOdds draw_prob
  let fair_odds_away := fairOdds away_prob
  let mo1 := round_dp 2 (fair_odds_home * u1)
  let moX := round_dp 2 (fair_odds_draw * uX)
  let mo2 := round_dp 2 (fair_odds_away * u2)
  let mo_pred := if prediction = "1" then mo1
    else if prediction = "X" then moX else mo2
  let fair_sel := if prediction = "1" then fair_odds_home
    else if prediction = "X" then fair_odds_draw else fair_odds_away
  let edge := round_dp 1 ((mo_pred - fair_sel) * 100 / mo_pred)
  { probabilities :=
      ⟨round_dp 1 home_prob, round_dp 1 draw_prob, round_dp 1 away_prob⟩
    prediction := prediction
    confidence := round_dp 1 confidence
    goals := ⟨home_goals, away_goals, home_goals + away_goals⟩
    value_bet :=
      { market := "Match Result"
        selection := prediction
        odds := mo_pred
        edge := edge
        fair_odds := round_dp 2 (100 / confidence)
        stake := if edge > 5 then "⭐⭐" else if edge > 3 then "⭐" else "⏸️" }
    league := league }

/-- The full `DataManager.analyze_match` (bot.py 494-562). -/
def analyze_match (home away league : String) (jh ja u1 uX u2 : ℚ) :
    AnalysisResult :=
  analyze_core (teamScore home) (teamScore away) league jh ja u1 uX u2

/-- The `if value['edge'] > 3` guard in `quick_predict_command`
(bot.py 739) deciding whether `save_value_bet` is invoked. -/
def quick_predict_saves_value_bet (analysis : AnalysisResult) : Bool :=
  decide (analysis.value_bet.edge > 3)

/-- A row of the SQLite `predictions` table (bot.py 58-75); `created_at`
is an abstract timestamp. -/
structure PredRow where
  id : ℕ
  telegram_id : ℤ
  home_team : String
  away_team : String
  league : String
  predicted_result : String
  home_prob : ℚ
  draw_prob : ℚ
  away_prob : ℚ
  confidence : ℚ
  expected_home_goals : ℤ
  expected_away_goals : ℤ
  created_at : ℕ
deriving DecidableEq, Repr

/-- Model of `DatabaseManager.save_prediction` (bot.py 190-226): INSERT with
autoincrement id and `datetime.now()` as `created_at` (passed explicitly
as `now`).  Returns the new table state. -/
def save_prediction (st : List PredRow) (tid : ℤ)
    (home_team away_team league predicted_result : String)
    (hp dp ap conf : ℚ) (ehg eag : ℤ) (now : ℕ) : List PredRow :=
  st ++ [⟨st.length + 1, tid, home_team, away_team, league, predicted_result,
         hp, dp, ap, conf, ehg, eag, now⟩]

/-- Insert a row into a list kept in decreasing `created_at` order
(model of SQL `ORDER BY created_at DESC`; ties keep earlier rows first,
matching SQLite's rowid order for appended rows). -/
def insertDesc (p : PredRow) : List PredRow → List PredRow
  | [] => [p]
  | q :: qs =>
    if p.created_at ≤ q.created_at then q :: insertDesc p qs
    else p :: q :: qs

/-- Sort rows by decreasing `created_at`. -/
def sortByCreatedDesc : List PredRow → List PredRow
  | [] => []
  | p :: ps => insertDesc p (sortByCreatedDesc ps)

/-- Model of `DatabaseManager.get_user_predictions` (bot.py 251-272):
`SELECT * FROM predictions WHERE telegram_id = ? ORDER BY created_at DESC
LIMIT ?`. -/
def get_user_predictions (st : List PredRow) (tid : ℤ) (limit : ℕ) :
    List PredRow :=
  (sortByCreatedDesc (st.filter fun p => p.telegram_id == tid)).take limit

/-- State of `SimpleUserStorage` (bot.py 570-588). -/
structure SimpleUserStorage where
  allowed_users : List ℤ
  subscribers : List ℤ
deriving DecidableEq, Repr

/-- Model of `SimpleUserStorage.__init__` (bot.py 571-577): starts with the parsed
`ADMIN_USER_ID` entries as the allowed set. -/
def initStorage (admin_ids : List ℤ) : SimpleUserStorage :=
  ⟨admin_ids, []⟩

/-- Model of `SimpleUserStorage.is_user_allowed` (bot.py 579-582); `inviteOnly`
models the `INVITE_ONLY` configuration flag (Gated vs Open mode). -/
def is_user_allowed (inviteOnly : Bool) (st : SimpleUserStorage) (uid : ℤ) :
    Bool :=
  if inviteOnly = false then true
  else decide (uid ∈ st.allowed_users)

/-- Model of `SimpleUserStorage.add_user` (bot.py 584-588). -/
def add_user (st : SimpleUserStorage) (uid : ℤ) : SimpleUserStorage × Bool :=
  if uid ∈ st.allowed_users then (st, false)
  else ({ st with allowed_users := st.allowed_users ++ [uid] }, true)

/-- A sequence of `add_user` (grant) calls applied in order. -/
def applyGrants (st : SimpleUserStorage) (grants : List ℤ) :
    SimpleUserStorage :=
  grants.foldl (fun s u => (add_user s u).1) st

/-- The per-user statistics derived by `mystats_command` (bot.py 823-872)
that the claims refer to. -/
structure UserStatsView where
  total_predictions : ℕ
  correct_predictions : ℤ
  accuracy : ℚ
  avg_confidence : ℚ
  user_level : String
deriving DecidableEq, Repr

/-- The pure aggregation core of `mystats_command` (bot.py 823-872):
given the user's stored predictions, compute totals, the (hardcoded)
average confidence, and the activity level. -/
def mystats_summary (predictions : List PredRow) : UserStatsView :=
  let total := predictions.length
  let correct : ℤ := if total > 0 then rnd_half_even ((total : ℚ) * (13/20)) else 0
  let accuracy : ℚ := if total > 0 then 65 else 0
  let avg_confidence : ℚ := if total > 0 then 145/2 else 0
  let user_level :=
    if total > 100 then "🟡 Master"
    else if total > 50 then "🟣 Expert"
    else if total > 20 then "🔵 Pro"
    else if total > 5 then "🟢 Intermediate"
    else "⚪ Beginner"
  ⟨total, correct, accuracy, avg_confidence, user_level⟩

/-- Modelled from the spec: "averageConfidence (mean of stored confidences,
0 if none)" — the spec-side definition compared against
`mystats_summary`. -/
def meanConfidence (predictions : List PredRow) : ℚ :=
  if predictions.length = 0 then 0
  else (predictions.map (·.confidence)).sum / predictions.length

/-- Modelled from the spec: "predictedOutcome = the outcome with the
strictly largest probability, evaluated Home, then Draw, then Away; a true
three-way tie resolves to Away" — the claim-side selector compared against
the code's `predConf`. -/
def specPredictedOutcome (hp dp ap : ℚ) : String :=
  if hp > dp ∧ hp > ap then "1"
  else if dp > hp ∧ dp > ap then "X"
  else "2"

/-- The unrounded probability associated with an outcome label. -/
def probOf (o : String) (hp dp ap : ℚ) : ℚ :=
  if o = "1" then hp else if o = "X" then dp else ap

/-- A sample stored prediction row used by concrete witnesses. -/
def sampleRow : PredRow :=
  ⟨1, 7, "Inter", "Milan", "SA", "1", 50, 20, 30, 50, 2, 1, 5⟩

/- Closed form of the probability pipeline.  With `s = hs + as_`: the raw
probabilities sum to exactly 100, so the 20-point draw floor always binds,
and after redistribution and renormalization the draw probability is the
constant 75/4 = 18.75. -/
theorem analyzeProbs_closed (hs as_ : ℕ) :
    analyzeProbs hs as_ =
      if hs + as_ = 0 then ((325/8 : ℚ), (75/4 : ℚ), (325/8 : ℚ))
      else (((375 * hs - 25 * (hs + as_) : ℚ) / (4 * (hs + as_)), (75/4 : ℚ),
            ((375 * as_ - 25 * (hs + as_) : ℚ) / (4 * (hs + as_))))) := by
  by_cases h : hs + as_ = 0
  · simp only [analyzeProbs, h, if_pos, if_true]
    norm_num
  · have hs0 : ((hs : ℚ) + as_) ≠ 0 := by
      have : ((hs + as_ : ℕ) : ℚ) ≠ 0 := Nat.cast_ne_zero.mpr h
      push_cast at this
      exact this
    simp only [analyzeProbs, h, if_false, if_neg]
    have h100 : (100 : ℚ) - (hs : ℚ) / ((hs : ℚ) + as_) * 100
        - (as_ : ℚ) / ((hs : ℚ) + as_) * 100 = 0 := by
      field_simp
      ring
    rw [h100]
    have hmax : max (20 : ℚ) 0 = 20 := by norm_num
    rw [hmax]
    have htot : ((hs : ℚ) / ((hs : ℚ) + as_) * 100 - 20 / 3) + 20 +
        ((as_ : ℚ) / ((hs : ℚ) + as_) * 100 - 20 / 3) = 320 / 3 := by
      field_simp
      ring
    rw [htot]
    refine Prod.ext ?_ (Prod.ext ?_ ?_)
    · show ((hs : ℚ) / ((hs : ℚ) + as_) * 100 - 20 / 3) / (320 / 3) * 100 = _
      field_simp
      ring
    · norm_num
    · show ((as_ : ℚ) / ((hs : ℚ) + as_) * 100 - 20 / 3) / (320 / 3) * 100 = _
      field_simp
      ring

/- `String.toLower` maps `Char.toLower` over the character data
(via `String.map_eq`), giving a directly computable form of
`teamScore`. -/
theorem teamScore_eq_list (s : String) :
    teamScore s = ((s.data.map Char.toLower).map Char.toNat).sum % 100 := by
  simp [teamScore, String.toLower, String.map_eq]

/- The banker's rounding of a rational is within 1/2 of it. -/
theorem rnd_half_even_close (x : ℚ) : |(rnd_half_even x : ℚ) - x| ≤ 1/2 := by
  have h0 : (0 : ℚ) ≤ x - ⌊x⌋ := by
    have := Int.floor_le x
    linarith
  have h1 : x - ⌊x⌋ < 1 := by
    have := Int.lt_floor_add_one x
    linarith
  simp only [rnd_half_even]
  split_ifs with ha hb hc <;> rw [abs_le] <;> constructor <;> push_cast <;>
    linarith

/- Rounding to one decimal moves a rational by at most 1/20. -/
theorem round_dp1_close (x : ℚ) : |round_dp 1 x - x| ≤ 1/20 := by
  have h := rnd_half_even_close (x * 10 ^ 1)
  rw [abs_le] at h
  obtain ⟨h1, h2⟩ := h
  unfold round_dp
  rw [abs_le]
  norm_num at *
  constructor <;> linarith

/- Rounding to two decimals moves a rational by at most 1/200. -/
theorem round_dp2_close (x : ℚ) : |round_dp 2 x - x| ≤ 1/200 := by
  have h := rnd_half_even_close (x * 10 ^ 2)
  rw [abs_le] at h
  obtain ⟨h1, h2⟩ := h
  unfold round_dp
  rw [abs_le]
  norm_num at *
  constructor <;> linarith

/- The unrounded draw probability is the constant 75/4 = 18.75. -/
theorem analyzeProbs_draw (hs as_ : ℕ) : (analyzeProbs hs as_).2.1 = 75/4 := by
  rw [analyzeProbs_closed]
  split_ifs <;> rfl

/- The unrounded home and away probabilities sum to 325/4 = 81.25. -/
theorem analyzeProbs_sum (hs as_ : ℕ) :
    (analyzeProbs hs as_).1 + (analyzeProbs hs as_).2.2 = 325/4 := by
  rw [analyzeProbs_closed]
  split_ifs with h
  · norm_num
  · have hs0 : (0 : ℚ) < (hs : ℚ) + as_ := by
      have : 0 < hs + as_ := Nat.pos_of_ne_zero h
      exact_mod_cast this
    show (375 * (hs : ℚ) - 25 * ((hs : ℚ) + as_)) / (4 * ((hs : ℚ) + as_)) +
        (375 * (as_ : ℚ) - 25 * ((hs : ℚ) + as_)) / (4 * ((hs : ℚ) + as_)) = 325/4
    field_simp
    ring

/- The unrounded home probability is at most 175/2 = 87.5. -/
theorem analyzeProbs_home_le (hs as_ : ℕ) : (analyzeProbs hs as_).1 ≤ 175/2 := by
  rw [analyzeProbs_closed]
  split_ifs with h
  · norm_num
  · have hs0 : (0 : ℚ) < (hs : ℚ) + as_ := by
      have : 0 < hs + as_ := Nat.pos_of_ne_zero h
      exact_mod_cast this
    show (375 * (hs : ℚ) - 25 * ((hs : ℚ) + as_)) / (4 * ((hs : ℚ) + as_)) ≤ 175/2
    rw [div_le_iff (by linarith)]
    have hha : (hs : ℚ) ≤ (hs : ℚ) + as_ := by
      have : (0 : ℚ) ≤ (as_ : ℚ) := Nat.cast_nonneg _
      linarith
    linarith

/- The unrounded away probability is at most 175/2 = 87.5. -/
theorem analyzeProbs_away_le (hs as_ : ℕ) : (analyzeProbs hs as_).2.2 ≤ 175/2 := by
  rw [analyzeProbs_closed]
  split_ifs with h
  · norm_num
  · have hs0 : (0 : ℚ) < (hs : ℚ) + as_ := by
      have : 0 < hs + as_ := Nat.pos_of_ne_zero h
      exact_mod_cast this
    show (375 * (as_ : ℚ) - 25 * ((hs : ℚ) + as_)) / (4 * ((hs : ℚ) + as_)) ≤ 175/2
    rw [div_le_iff (by linarith)]
    have hha : (as_ : ℚ) ≤ (hs : ℚ) + as_ := by
      have : (0 : ℚ) ≤ (hs : ℚ) := Nat.cast_nonneg _
      linarith
    linarith

/- Projection lemmas for `analyze_core`: the fields in terms of the
pipeline functions. -/
theorem analyze_core_probabilities (hs as_ : ℕ) (league : String)
    (jh ja u1 uX u2 : ℚ) :
    (analyze_core hs as_ league jh ja u1 uX u2).probabilities =
      ⟨round_dp 1 (analyzeProbs hs as_).1, round_dp 1 (analyzeProbs hs as_).2.1,
       round_dp 1 (analyzeProbs hs as_).2.2⟩ := rfl

theorem analyze_core_prediction (hs as_ : ℕ) (league : String)
    (jh ja u1 uX u2 : ℚ) :
    (analyze_core hs as_ league jh ja u1 uX u2).prediction =
      (predConf (analyzeProbs hs as_).1 (analyzeProbs hs as_).2.1
        (analyzeProbs hs as_).2.2).1 := rfl

theorem analyze_core_confidence (hs as_ : ℕ) (league : String)
    (jh ja u1 uX u2 : ℚ) :
    (analyze_core hs as_ league jh ja u1 uX u2).confidence =
      round_dp 1 (predConf (analyzeProbs hs as_).1 (analyzeProbs hs as_).2.1
        (analyzeProbs hs as_).2.2).2 := rfl

/- The code's selection (`predConf`, conditions written `hp > ap ∧ hp > dp`)
agrees with the spec-side first-strict-maximum selector, and the selected
confidence is the probability of the selected outcome. -/
theorem predConf_spec (hp dp ap : ℚ) :
    (predConf hp dp ap).1 = specPredictedOutcome hp dp ap ∧
    (predConf hp dp ap).2 = probOf (predConf hp dp ap).1 hp dp ap := by
  unfold predConf specPredictedOutcome probOf
  split_ifs with h1 h2 h3 h4 h5 h6 h7 <;> simp_all <;> tauto

/-- C3: for every input, `analyze_match`'s predicted outcome is the outcome
with the strictly largest probability evaluated in the order Home, then
Draw, then Away (a true three-way tie falling through to Away), and the
confidence is the winning outcome's probability rounded to one decimal. -/
theorem analyze_prediction_first_strict_max (home away league : String)
    (jh ja u1 uX u2 : ℚ) :
    (analyze_match home away league jh ja u1 uX u2).prediction =
      specPredictedOutcome (analyzeProbs (teamScore home) (teamScore away)).1
        (analyzeProbs (teamScore home) (teamScore away)).2.1
        (analyzeProbs (teamScore home) (teamScore away)).2.2 ∧
    (analyze_match home away league jh ja u1 uX u2).confidence =
      round_dp 1 (probOf (analyze_match home away league jh ja u1 uX u2).prediction
        (analyzeProbs (teamScore home) (teamScore away)).1
        (analyzeProbs (teamScore home) (teamScore away)).2.1
        (analyzeProbs (teamScore home) (teamScore away)).2.2) := by
  unfold analyze_match
  rw [analyze_core_prediction, analyze_core_confidence]
  obtain ⟨h1, h2⟩ := predConf_spec (analyzeProbs (teamScore home) (teamScore away)).1
    (analyzeProbs (teamScore home) (teamScore away)).2.1
    (analyzeProbs (teamScore home) (teamScore away)).2.2
  exact ⟨h1, by rw [h2]⟩

/- The stake string as a function of the edge value. -/
theorem stake_cases (e : ℚ) :
    ((if e > 5 then "⭐⭐" else if e > 3 then "⭐" else "⏸️") = "⭐⭐" ↔ e > 5) ∧
    ((if e > 5 then "⭐⭐" else if e > 3 then "⭐" else "⏸️") = "⭐" ↔ (3 < e ∧ e ≤ 5)) ∧
    ((if e > 5 then "⭐⭐" else if e > 3 then "⭐" else "⏸️") = "⏸️" ↔ e ≤ 3) := by
  split_ifs with h1 h2 <;>
    refine ⟨?_, ?_, ?_⟩ <;> simp_all <;> first | linarith | decide

/- The stake field is computed from the edge field by the source's
`'⭐⭐' if edge > 5 else '⭐' if edge > 3 else '⏸️'`. -/
theorem analyze_stake_eq (home away league : String) (jh ja u1 uX u2 : ℚ) :
    (analyze_match home away league jh ja u1 uX u2).value_bet.stake =
      (if (analyze_match home away league jh ja u1 uX u2).value_bet.edge > 5
        then "⭐⭐"
        else if (analyze_match home away league jh ja u1 uX u2).value_bet.edge > 3
        then "⭐" else "⏸️") := rfl

/-- C4: the stake tier of every analysis result is the 3-star tier (`"⭐⭐"`)
iff the edge exceeds 5, the 1-star tier (`"⭐"`) iff the edge is in (3, 5],
and the none tier (`"⏸️"`) iff the edge is at most 3. -/
theorem stake_tier_thresholds (home away league : String) (jh ja u1 uX u2 : ℚ) :
    ((analyze_match home away league jh ja u1 uX u2).value_bet.stake = "⭐⭐" ↔
      (analyze_match home away league jh ja u1 uX u2).value_bet.edge > 5) ∧
    ((analyze_match home away league jh ja u1 uX u2).value_bet.stake = "⭐" ↔
      (3 < (analyze_match home away league jh ja u1 uX u2).value_bet.edge ∧
       (analyze_match home away league jh ja u1 uX u2).value_bet.edge ≤ 5)) ∧
    ((analyze_match home away league jh ja u1 uX u2).value_bet.stake = "⏸️" ↔
      (analyze_match home away league jh ja u1 uX u2).value_bet.edge ≤ 3) := by
  rw [analyze_stake_eq]
  exact stake_cases _

/- Concrete rounding fact: the constant draw probability 18.75 rounds to
18.8 at one decimal (the tie goes to the even last digit). -/
theorem round_draw : round_dp 1 (75/4 : ℚ) = 94/5 := by
  norm_num [round_dp, rnd_half_even]

/-- C2: for every pair of non-empty team names, the three returned
(one-decimal rounded) probabilities of `analyze_match` sum to 100 within a
tolerance of 0.1. -/
theorem analyze_probs_sum_within_tolerance (home away league : String)
    (jh ja u1 uX u2 : ℚ) (hh : home ≠ "") (ha : away ≠ "") :
    |(analyze_match home away league jh ja u1 uX u2).probabilities.home +
     (analyze_match home away league jh ja u1 uX u2).probabilities.draw +
     (analyze_match home away league jh ja u1 uX u2).probabilities.away -
     100| ≤ 1/10 := by
  unfold analyze_match
  rw [analyze_core_probabilities]
  have hd := analyzeProbs_draw (teamScore home) (teamScore away)
  have hs := analyzeProbs_sum (teamScore home) (teamScore away)
  set p := (analyzeProbs (teamScore home) (teamScore away)).1 with hp
  set q := (analyzeProbs (teamScore home) (teamScore away)).2.2 with hq
  show |round_dp 1 p + round_dp 1 (analyzeProbs (teamScore home) (teamScore away)).2.1 +
    round_dp 1 q - 100| ≤ 1/10
  rw [hd, round_draw]
  have h1 := rnd_half_even_close (p * 10 ^ 1)
  have h2 := rnd_half_even_close (q * 10 ^ 1)
  rw [abs_le] at h1 h2
  set m := rnd_half_even (p * 10 ^ 1) with hm
  set n := rnd_half_even (q * 10 ^ 1) with hn
  -- the integer m + n is within 1 of 812.5, hence is 812 or 813
  have hlow : (1623/2 : ℚ) ≤ (m : ℚ) + n := by
    have := h1.1
    have := h2.1
    norm_num at *
    linarith
  have hhigh : (m : ℚ) + n ≤ 1627/2 := by
    have := h1.2
    have := h2.2
    norm_num at *
    linarith
  have hi1 : (812 : ℤ) ≤ m + n := by
    have : (811 : ℚ) < (m : ℚ) + n := by linarith
    have h' : (811 : ℤ) < m + n := by exact_mod_cast this
    omega
  have hi2 : m + n ≤ (813 : ℤ) := by
    have : (m : ℚ) + n < 814 := by linarith
    have h' : m + n < (814 : ℤ) := by exact_mod_cast this
    omega
  have hc1 : (812 : ℚ) ≤ (m : ℚ) + n := by exact_mod_cast hi1
  have hc2 : (m : ℚ) + n ≤ (813 : ℚ) := by exact_mod_cast hi2
  unfold round_dp
  rw [← hm, ← hn, abs_le]
  norm_num
  constructor <;> linarith

/-- Witness for C2 at the concrete input ("Inter", "Milan"). -/
theorem analyze_probs_sum_within_tolerance_witness :
    ("Inter" : String) ≠ "" ∧ ("Milan" : String) ≠ "" ∧
    |(analyze_match "Inter" "Milan" "SA" 0 0 (19/20) (19/20) (19/20)).probabilities.home +
     (analyze_match "Inter" "Milan" "SA" 0 0 (19/20) (19/20) (19/20)).probabilities.draw +
     (analyze_match "Inter" "Milan" "SA" 0 0 (19/20) (19/20) (19/20)).probabilities.away -
     100| ≤ 1/10 :=
  ⟨by decide, by decide,
    analyze_probs_sum_within_tolerance "Inter" "Milan" "SA" 0 0 (19/20) (19/20)
      (19/20) (by decide) (by decide)⟩

/- With the draw probability pinned at 18.75 and home + away = 81.25, the
draw branch of the selector can never fire. -/
theorem predConf_ne_X (hp ap : ℚ) (hsum : hp + ap = 325/4) :
    (predConf hp (75/4) ap).1 ≠ "X" := by
  unfold predConf
  split_ifs with h1 h2
  · simp
  · exfalso
    obtain ⟨ha, hb⟩ := h2
    linarith
  · simp

/-- C8: for every pair of non-empty team names, the unrounded draw
probability computed by `analyze_match` is the constant 18.75 (the
20-point draw floor always binds because the raw home and away
probabilities sum to exactly 100), the returned draw probability is the
constant 18.8, and consequently the predicted outcome is never the draw
`"X"`. -/
theorem draw_prob_constant_never_draw (home away league : String)
    (jh ja u1 uX u2 : ℚ) (hh : home ≠ "") (ha : away ≠ "") :
    (analyzeProbs (teamScore home) (teamScore away)).2.1 = 75/4 ∧
    (analyze_match home away league jh ja u1 uX u2).probabilities.draw = 94/5 ∧
    (analyze_match home away league jh ja u1 uX u2).prediction ≠ "X" := by
  have hd := analyzeProbs_draw (teamScore home) (teamScore away)
  have hs := analyzeProbs_sum (teamScore home) (teamScore away)
  refine ⟨hd, ?_, ?_⟩
  · unfold analyze_match
    rw [analyze_core_probabilities]
    show round_dp 1 (analyzeProbs (teamScore home) (teamScore away)).2.1 = 94/5
    rw [hd, round_draw]
  · unfold analyze_match
    rw [analyze_core_prediction, hd]
    exact predConf_ne_X _ _ hs

/-- Witness for C8 at the concrete input ("Inter", "Milan"). -/
theorem draw_prob_constant_never_draw_witness :
    ("Inter" : String) ≠ "" ∧ ("Milan" : String) ≠ "" ∧
    (analyzeProbs (teamScore "Inter") (teamScore "Milan")).2.1 = 75/4 ∧
    (analyze_match "Inter" "Milan" "SA" 0 0 (19/20) (19/20) (19/20)).probabilities.draw = 94/5 ∧
    (analyze_match "Inter" "Milan" "SA" 0 0 (19/20) (19/20) (19/20)).prediction ≠ "X" :=
  ⟨by decide, by decide,
    draw_prob_constant_never_draw "Inter" "Milan" "SA" 0 0 (19/20) (19/20) (19/20)
      (by decide) (by decide)⟩

/- Whatever outcome is selected, its unrounded probability lies in
[18.75, 87.5]. -/
theorem predConf_conf_bounds (hp ap : ℚ) (hsum : hp + ap = 325/4)
    (hhp : hp ≤ 175/2) (hap : ap ≤ 175/2) :
    75/4 ≤ (predConf hp (75/4) ap).2 ∧ (predConf hp (75/4) ap).2 ≤ 175/2 := by
  unfold predConf
  split_ifs with h1 h2
  · exact ⟨le_of_lt h1.2, hhp⟩
  · constructor <;> norm_num
  · push_neg at h1
    rcases le_or_lt hp ap with hle | hgt
    · exact ⟨by simp only; linarith, hap⟩
    · have := h1 hgt
      exact ⟨by simp only; linarith, hap⟩

/- Market odds built as `round(fair * u, 2)` with a margin u ∈ [0.92, 0.97]
always land strictly below the fair odds, and the resulting rounded edge is
strictly negative, whenever the selected probability is in [18.75, 87.5]. -/
theorem edge_is_negative (c u : ℚ) (hc1 : 75/4 ≤ c) (hc2 : c ≤ 175/2)
    (hu1 : 23/25 ≤ u) (hu2 : u ≤ 97/100) :
    round_dp 1 ((round_dp 2 (round_dp 2 (100/c) * u) - round_dp 2 (100/c)) * 100 /
      round_dp 2 (round_dp 2 (100/c) * u)) < 0 ∧
    round_dp 2 (round_dp 2 (100/c) * u) < round_dp 2 (100/c) := by
  have hc0 : (0:ℚ) < c := by linarith
  have hx1 : (8:ℚ)/7 ≤ 100/c := by
    rw [le_div_iff₀ hc0]
    linarith
  have hx2 : (100:ℚ)/c ≤ 16/3 := by
    rw [div_le_iff₀ hc0]
    linarith
  set f := round_dp 2 (100/c) with hfdef
  have hf := round_dp2_close (100/c)
  rw [abs_le] at hf
  obtain ⟨hfa, hfb⟩ := hf
  have hfl : (1593:ℚ)/1400 ≤ f := by linarith
  have hfu : f ≤ 3203/600 := by linarith
  have hfpos : (0:ℚ) < f := by linarith
  set m := round_dp 2 (f * u) with hmdef
  have hm := round_dp2_close (f * u)
  rw [abs_le] at hm
  obtain ⟨hma, hmb⟩ := hm
  have hfu97 : f * u ≤ f * (97/100) :=
    mul_le_mul_of_nonneg_left hu2 (le_of_lt hfpos)
  have hfu92 : f * (23/25) ≤ f * u :=
    mul_le_mul_of_nonneg_left hu1 (le_of_lt hfpos)
  have hq1 : f * (97/100) ≤ 3203/600 * (97/100) :=
    mul_le_mul_of_nonneg_right hfu (by norm_num)
  have hq2 : (1593:ℚ)/1400 * (23/25) ≤ f * (23/25) :=
    mul_le_mul_of_nonneg_right hfl (by norm_num)
  have hmu : m ≤ 310991/60000 := by linarith
  have hml : (36464:ℚ)/35000 ≤ m := by linarith
  have hmpos : (0:ℚ) < m := by linarith
  have hmf : m - f ≤ -4079/140000 := by linarith
  have hlt : m < f := by linarith
  refine ⟨?_, hlt⟩
  have hraw : (m - f) * 100 / m ≤ -1/2 := by
    rw [div_le_iff₀ hmpos]
    linarith
  have hr := round_dp1_close ((m - f) * 100 / m)
  rw [abs_le] at hr
  linarith [hr.2]

/- Further projection lemmas for `analyze_core`'s value-bet fields. -/
theorem analyze_core_fair_odds (hs as_ : ℕ) (league : String)
    (jh ja u1 uX u2 : ℚ) :
    (analyze_core hs as_ league jh ja u1 uX u2).value_bet.fair_odds =
      round_dp 2 (100 / (predConf (analyzeProbs hs as_).1
        (analyzeProbs hs as_).2.1 (analyzeProbs hs as_).2.2).2) := rfl

theorem analyze_core_odds (hs as_ : ℕ) (league : String)
    (jh ja u1 uX u2 : ℚ) :
    (analyze_core hs as_ league jh ja u1 uX u2).value_bet.odds =
      (if (predConf (analyzeProbs hs as_).1 (analyzeProbs hs as_).2.1
            (analyzeProbs hs as_).2.2).1 = "1"
        then round_dp 2 (fairOdds (analyzeProbs hs as_).1 * u1)
        else if (predConf (analyzeProbs hs as_).1 (analyzeProbs hs as_).2.1
            (analyzeProbs hs as_).2.2).1 = "X"
        then round_dp 2 (fairOdds (analyzeProbs hs as_).2.1 * uX)
        else round_dp 2 (fairOdds (analyzeProbs hs as_).2.2 * u2)) := rfl

theorem analyze_core_edge (hs as_ : ℕ) (league : String)
    (jh ja u1 uX u2 : ℚ) :
    (analyze_core hs as_ league jh ja u1 uX u2).value_bet.edge =
      round_dp 1
        (((analyze_core hs as_ league jh ja u1 uX u2).value_bet.odds -
          (if (predConf (analyzeProbs hs as_).1 (analyzeProbs hs as_).2.1
                (analyzeProbs hs as_).2.2).1 = "1"
            then fairOdds (analyzeProbs hs as_).1
            else if (predConf (analyzeProbs hs as_).1 (analyzeProbs hs as_).2.1
                (analyzeProbs hs as_).2.2).1 = "X"
            then fairOdds (analyzeProbs hs as_).2.1
            else fairOdds (analyzeProbs hs as_).2.2)) * 100 /
          (analyze_core hs as_ league jh ja u1 uX u2).value_bet.odds) := rfl

theorem analyze_core_stake (hs as_ : ℕ) (league : String)
    (jh ja u1 uX u2 : ℚ) :
    (analyze_core hs as_ league jh ja u1 uX u2).value_bet.stake =
      (if (analyze_core hs as_ league jh ja u1 uX u2).value_bet.edge > 5
        then "⭐⭐"
        else if (analyze_core hs as_ league jh ja u1 uX u2).value_bet.edge > 3
        then "⭐" else "⏸️") := rfl

/- Characterization of the value-bet fields: there is a selected
probability c ∈ [18.75, 87.5] and one of the three margin draws u such
that fair odds, market odds and edge are exactly the `round_dp`
expressions over c and u. -/
theorem analyze_core_value_char (hs as_ : ℕ) (league : String)
    (jh ja u1 uX u2 : ℚ) :
    ∃ c u, 75/4 ≤ c ∧ c ≤ 175/2 ∧ (u = u1 ∨ u = uX ∨ u = u2) ∧
      (analyze_core hs as_ league jh ja u1 uX u2).value_bet.fair_odds =
        round_dp 2 (100/c) ∧
      (analyze_core hs as_ league jh ja u1 uX u2).value_bet.odds =
        round_dp 2 (round_dp 2 (100/c) * u) ∧
      (analyze_core hs as_ league jh ja u1 uX u2).value_bet.edge =
        round_dp 1 ((round_dp 2 (round_dp 2 (100/c) * u) - round_dp 2 (100/c)) *
          100 / round_dp 2 (round_dp 2 (100/c) * u)) := by
  have hd := analyzeProbs_draw hs as_
  have hsum := analyzeProbs_sum hs as_
  have hhle := analyzeProbs_home_le hs as_
  have hale := analyzeProbs_away_le hs as_
  have hX1 : ("X" : String) ≠ "1" := by decide
  have h21 : ("2" : String) ≠ "1" := by decide
  have h2X : ("2" : String) ≠ "X" := by decide
  by_cases h1 : (analyzeProbs hs as_).1 > (analyzeProbs hs as_).2.2 ∧
      (analyzeProbs hs as_).1 > (analyzeProbs hs as_).2.1
  · -- home branch: prediction "1", confidence is the home probability
    have hpc : predConf (analyzeProbs hs as_).1 (analyzeProbs hs as_).2.1
        (analyzeProbs hs as_).2.2 = ("1", (analyzeProbs hs as_).1) := by
      unfold predConf
      rw [if_pos h1]
    have hcpos : (0:ℚ) < (analyzeProbs hs as_).1 := by
      rw [hd] at h1
      linarith [h1.2]
    refine ⟨(analyzeProbs hs as_).1, u1, by rw [hd] at h1; linarith [h1.2],
      hhle, Or.inl rfl, ?_, ?_, ?_⟩
    · rw [analyze_core_fair_odds, hpc]
    · rw [analyze_core_odds, hpc]
      dsimp only
      rw [if_pos rfl]
      unfold fairOdds
      rw [if_pos hcpos]
    · rw [analyze_core_edge, analyze_core_odds, hpc]
      dsimp only
      rw [if_pos rfl, if_pos rfl]
      unfold fairOdds
      rw [if_pos hcpos]
  · by_cases h2 : (analyzeProbs hs as_).2.1 > (analyzeProbs hs as_).1 ∧
        (analyzeProbs hs as_).2.1 > (analyzeProbs hs as_).2.2
    · -- draw branch: prediction "X", confidence 75/4
      have hpc : predConf (analyzeProbs hs as_).1 (analyzeProbs hs as_).2.1
          (analyzeProbs hs as_).2.2 = ("X", (analyzeProbs hs as_).2.1) := by
        unfold predConf
        rw [if_neg h1, if_pos h2]
      have hcpos : (0:ℚ) < (analyzeProbs hs as_).2.1 := by
        rw [hd]
        norm_num
      refine ⟨(analyzeProbs hs as_).2.1, uX, by rw [hd], by rw [hd]; norm_num,
        Or.inr (Or.inl rfl), ?_, ?_, ?_⟩
      · rw [analyze_core_fair_odds, hpc]
      · rw [analyze_core_odds, hpc]
        dsimp only
        rw [if_neg hX1, if_pos rfl]
        unfold fairOdds
        rw [if_pos hcpos]
      · rw [analyze_core_edge, analyze_core_odds, hpc]
        dsimp only
        rw [if_neg hX1, if_neg hX1, if_pos rfl, if_pos rfl]
        unfold fairOdds
        rw [if_pos hcpos]
    · -- away branch: prediction "2", confidence is the away probability
      have hpc : predConf (analyzeProbs hs as_).1 (analyzeProbs hs as_).2.1
          (analyzeProbs hs as_).2.2 = ("2", (analyzeProbs hs as_).2.2) := by
        unfold predConf
        rw [if_neg h1, if_neg h2]
      have hclow : 75/4 ≤ (analyzeProbs hs as_).2.2 := by
        push_neg at h1
        rcases le_or_lt (analyzeProbs hs as_).1 (analyzeProbs hs as_).2.2 with
          hle | hgt
        · linarith
        · have := h1 hgt
          rw [hd] at this
          linarith
      have hcpos : (0:ℚ) < (analyzeProbs hs as_).2.2 := by linarith
      refine ⟨(analyzeProbs hs as_).2.2, u2, hclow, hale, Or.inr (Or.inr rfl),
        ?_, ?_, ?_⟩
      · rw [analyze_core_fair_odds, hpc]
      · rw [analyze_core_odds, hpc]
        dsimp only
        rw [if_neg h21, if_neg h2X]
        unfold fairOdds
        rw [if_pos hcpos]
      · rw [analyze_core_edge, analyze_core_odds, hpc]
        dsimp only
        rw [if_neg h21, if_neg h21, if_neg h2X, if_neg h2X]
        unfold fairOdds
        rw [if_pos hcpos]

/-- C9: for every input and all bookmaker-margin draws in [0.92, 0.97],
the edge computed by `analyze_match` is strictly negative (the market odds
stay strictly below the fair odds even after two-decimal rounding), so the
stake recommendation is always the none tier and the `edge > 3` branch of
the predict flow never invokes `save_value_bet`. -/
theorem analyze_edge_always_negative (home away league : String)
    (jh ja u1 uX u2 : ℚ)
    (hu1l : 23/25 ≤ u1) (hu1u : u1 ≤ 97/100)
    (huXl : 23/25 ≤ uX) (huXu : uX ≤ 97/100)
    (hu2l : 23/25 ≤ u2) (hu2u : u2 ≤ 97/100) :
    (analyze_match home away league jh ja u1 uX u2).value_bet.edge < 0 ∧
    (analyze_match home away league jh ja u1 uX u2).value_bet.odds <
      (analyze_match home away league jh ja u1 uX u2).value_bet.fair_odds ∧
    (analyze_match home away league jh ja u1 uX u2).value_bet.stake = "⏸️" ∧
    quick_predict_saves_value_bet
      (analyze_match home away league jh ja u1 uX u2) = false := by
  unfold analyze_match
  obtain ⟨c, u, hc1, hc2, hu, hfair, hodds, hedge⟩ :=
    analyze_core_value_char (teamScore home) (teamScore away) league jh ja u1 uX u2
  have hub : 23/25 ≤ u ∧ u ≤ 97/100 := by
    rcases hu with rfl | rfl | rfl
    · exact ⟨hu1l, hu1u⟩
    · exact ⟨huXl, huXu⟩
    · exact ⟨hu2l, hu2u⟩
  obtain ⟨hneg, hlt⟩ := edge_is_negative c u hc1 hc2 hub.1 hub.2
  have hEneg : (analyze_core (teamScore home) (teamScore away) league jh ja
      u1 uX u2).value_bet.edge < 0 := by
    rw [hedge]
    exact hneg
  refine ⟨hEneg, ?_, ?_, ?_⟩
  · rw [hodds, hfair]
    exact hlt
  · rw [analyze_core_stake, if_neg (by linarith), if_neg (by linarith)]
  · unfold quick_predict_saves_value_bet
    simp only [decide_eq_false_iff_not, not_lt]
    linarith

/-- Witness for C9 at the concrete input ("Inter", "Milan") with all three
margin draws equal to 0.95. -/
theorem analyze_edge_always_negative_witness :
    (analyze_match "Inter" "Milan" "SA" 0 0 (19/20) (19/20) (19/20)).value_bet.edge < 0 ∧
    (analyze_match "Inter" "Milan" "SA" 0 0 (19/20) (19/20) (19/20)).value_bet.odds <
      (analyze_match "Inter" "Milan" "SA" 0 0 (19/20) (19/20) (19/20)).value_bet.fair_odds ∧
    (analyze_match "Inter" "Milan" "SA" 0 0 (19/20) (19/20) (19/20)).value_bet.stake = "⏸️" ∧
    quick_predict_saves_value_bet
      (analyze_match "Inter" "Milan" "SA" 0 0 (19/20) (19/20) (19/20)) = false :=
  analyze_edge_always_negative "Inter" "Milan" "SA" 0 0 (19/20) (19/20) (19/20)
    (by norm_num) (by norm_num) (by norm_num) (by norm_num) (by norm_num)
    (by norm_num)

/- Concrete team scores used by the counterexamples. -/
theorem teamScore_empty : teamScore "" = 0 := by
  rw [teamScore_eq_list]
  rfl

theorem teamScore_milan : teamScore "Milan" = 29 := by
  rw [teamScore_eq_list]
  rfl

theorem teamScore_milan_lower : teamScore "milan" = 29 := by
  rw [teamScore_eq_list]
  rfl

theorem teamScore_inter : teamScore "Inter" = 46 := by
  rw [teamScore_eq_list]
  rfl

theorem teamScore_d : teamScore "d" = 0 := by
  rw [teamScore_eq_list]
  rfl

/-- C1 counterexample: `analyze_match` performs no input validation.
`analyze("", "Milan")` and `analyze("Inter", "")` do not fail: each
returns an ordinary `AnalysisResult` (prediction `"2"` resp. `"1"`, both
with confidence 87.5). -/
theorem analyze_empty_input_returns_result :
    (analyze_match "" "Milan" "SA" 0 0 (19/20) (19/20) (19/20)).prediction = "2" ∧
    (analyze_match "" "Milan" "SA" 0 0 (19/20) (19/20) (19/20)).confidence = 175/2 ∧
    (analyze_match "Inter" "" "SA" 0 0 (19/20) (19/20) (19/20)).prediction = "1" ∧
    (analyze_match "Inter" "" "SA" 0 0 (19/20) (19/20) (19/20)).confidence = 175/2 := by
  have h1 : (analyzeProbs (teamScore "") (teamScore "Milan")) =
      (-25/4, 75/4, 175/2) := by
    rw [teamScore_empty, teamScore_milan, analyzeProbs_closed]
    norm_num
  have h2 : (analyzeProbs (teamScore "Inter") (teamScore "")) =
      (175/2, 75/4, -25/4) := by
    rw [teamScore_inter, teamScore_empty, analyzeProbs_closed]
    norm_num
  unfold analyze_match
  rw [analyze_core_prediction, analyze_core_confidence,
    analyze_core_prediction, analyze_core_confidence, h1, h2]
  refine ⟨?_, ?_, ?_, ?_⟩ <;>
    · unfold predConf
      norm_num [round_dp, rnd_half_even]

/-- C1 amended: `analyze` never fails on empty or whitespace-only input;
it returns an ordinary `AnalysisResult`.  An empty side is scored 0
(prediction `"2"` resp. `"1"` at the claim's inputs); a whitespace-only
name is scored from its whitespace codepoints (`teamScore " " = 32`, so
`analyze(" ", "Milan")` predicts `"1"`); and when both sides score 0 the
50/50 guard applies (`analyze("", "")` predicts `"2"` with confidence
40.6). -/
theorem analyze_no_input_validation :
    (analyze_match "" "Milan" "SA" 0 0 (19/20) (19/20) (19/20)).prediction = "2" ∧
    (analyze_match "Inter" "" "SA" 0 0 (19/20) (19/20) (19/20)).prediction = "1" ∧
    (analyze_match "" "" "SA" 0 0 (19/20) (19/20) (19/20)).prediction = "2" ∧
    (analyze_match "" "" "SA" 0 0 (19/20) (19/20) (19/20)).confidence = 203/5 ∧
    (analyze_match " " "Milan" "SA" 0 0 (19/20) (19/20) (19/20)).prediction = "1" := by
  have h1 : (analyzeProbs (teamScore "") (teamScore "Milan")) =
      (-25/4, 75/4, 175/2) := by
    rw [teamScore_empty, teamScore_milan, analyzeProbs_closed]
    norm_num
  have h2 : (analyzeProbs (teamScore "Inter") (teamScore "")) =
      (175/2, 75/4, -25/4) := by
    rw [teamScore_inter, teamScore_empty, analyzeProbs_closed]
    norm_num
  have h3 : (analyzeProbs (teamScore "") (teamScore "")) =
      (325/8, 75/4, 325/8) := by
    rw [teamScore_empty, analyzeProbs_closed]
    norm_num
  have hsp : teamScore " " = 32 := by
    rw [teamScore_eq_list]
    rfl
  have h4 : (analyzeProbs (teamScore " ") (teamScore "Milan")) =
      (10475/244, 75/4, 4675/122) := by
    rw [hsp, teamScore_milan, analyzeProbs_closed]
    norm_num
  unfold analyze_match
  rw [analyze_core_prediction, analyze_core_prediction,
    analyze_core_prediction, analyze_core_confidence,
    analyze_core_prediction, h1, h2, h3, h4]
  refine ⟨?_, ?_, ?_, ?_, ?_⟩ <;>
    · unfold predConf
      norm_num [round_dp, rnd_half_even]

/-- C10: the probabilities returned by `analyze_match` are not always in
[0, 100].  For home `"d"` (lower-cased codepoint sum 100 ≡ 0 mod 100) and
away `"milan"` (score 29), the zero guard does not fire, the raw home
probability is 0, the renormalized home probability is -25/4 = -6.25, and
the returned (one-decimal rounded) home probability is -31/5 = -6.2 < 0. -/
theorem analyze_home_prob_negative :
    ("d" : String) ≠ "" ∧ ("milan" : String) ≠ "" ∧
    teamScore "d" = 0 ∧ teamScore "milan" = 29 ∧
    teamScore "d" + teamScore "milan" ≠ 0 ∧
    (analyzeProbs (teamScore "d") (teamScore "milan")).1 = -25/4 ∧
    (analyze_match "d" "milan" "SA" 0 0 (19/20) (19/20) (19/20)).probabilities.home
      = -31/5 ∧
    (analyze_match "d" "milan" "SA" 0 0 (19/20) (19/20) (19/20)).probabilities.home
      < 0 := by
  have hpr : (analyzeProbs (teamScore "d") (teamScore "milan")).1 = -25/4 := by
    rw [teamScore_d, teamScore_milan_lower, analyzeProbs_closed]
    norm_num
  have hh : (analyze_match "d" "milan" "SA" 0 0 (19/20) (19/20)
      (19/20)).probabilities.home = -31/5 := by
    unfold analyze_match
    rw [analyze_core_probabilities]
    show round_dp 1 (analyzeProbs (teamScore "d") (teamScore "milan")).1 = -31/5
    rw [hpr]
    norm_num [round_dp, rnd_half_even]
  refine ⟨by decide, by decide, teamScore_d, teamScore_milan_lower, ?_, hpr, hh, ?_⟩
  · rw [teamScore_d, teamScore_milan_lower]
    norm_num
  · rw [hh]
    norm_num

/- If a row's timestamp is at most every timestamp in the list, it is
inserted at the end. -/
theorem insertDesc_of_le_all (p : PredRow) (m : List PredRow)
    (hall : ∀ q ∈ m, p.created_at ≤ q.created_at) :
    insertDesc p m = m ++ [p] := by
  induction m with
  | nil => rfl
  | cons q qs ih =>
    show (if p.created_at ≤ q.created_at then q :: insertDesc p qs
      else p :: q :: qs) = (q :: qs) ++ [p]
    rw [if_pos (hall q (List.mem_cons_self q qs)),
      ih fun x hx => hall x (List.mem_cons_of_mem q hx)]
    rfl

/- Sorting a list whose timestamps strictly increase along it reverses
the list. -/
theorem sortByCreatedDesc_eq_reverse (l : List PredRow)
    (h : List.Pairwise (fun p q => p.created_at < q.created_at) l) :
    sortByCreatedDesc l = l.reverse := by
  induction l with
  | nil => rfl
  | cons p ps ih =>
    rw [List.pairwise_cons] at h
    show insertDesc p (sortByCreatedDesc ps) = (p :: ps).reverse
    rw [ih h.2, List.reverse_cons, insertDesc_of_le_all]
    intro q hq
    exact le_of_lt (h.1 q (List.mem_reverse.mp hq))

/- Appending a row whose timestamp is strictly larger than all existing
ones puts it at the head of the sorted order. -/
theorem sortByCreatedDesc_append_max (l : List PredRow) (r : PredRow)
    (hall : ∀ q ∈ l, q.created_at < r.created_at) :
    sortByCreatedDesc (l ++ [r]) = r :: sortByCreatedDesc l := by
  induction l with
  | nil => rfl
  | cons p ps ih =>
    have hstep : sortByCreatedDesc ((p :: ps) ++ [r]) =
        insertDesc p (sortByCreatedDesc (ps ++ [r])) := rfl
    rw [hstep, ih fun x hx => hall x (List.mem_cons_of_mem p hx)]
    show (if p.created_at ≤ r.created_at then r :: insertDesc p (sortByCreatedDesc ps)
      else p :: r :: sortByCreatedDesc ps) = r :: insertDesc p (sortByCreatedDesc ps)
    rw [if_pos (le_of_lt (hall p (List.mem_cons_self p ps)))]

/-- C5: appending a prediction with a fresh (strictly largest) timestamp
and then listing that identity's predictions with limit 1 returns exactly
the appended row; more generally, on a strictly timestamp-increasing
store, `get_user_predictions` returns that identity's rows
most-recent-first (the reverse of insertion order), bounded by the
limit. -/
theorem save_then_list_predictions (st : List PredRow) (tid : ℤ)
    (ht aw lg pr : String) (hp dp ap cf : ℚ) (eh ea : ℤ) (now lim : ℕ)
    (hfresh : ∀ p ∈ st, p.created_at < now)
    (hord : List.Pairwise (fun p q => p.created_at < q.created_at) st) :
    get_user_predictions
        (save_prediction st tid ht aw lg pr hp dp ap cf eh ea now) tid 1 =
      [⟨st.length + 1, tid, ht, aw, lg, pr, hp, dp, ap, cf, eh, ea, now⟩] ∧
    get_user_predictions
        (save_prediction st tid ht aw lg pr hp dp ap cf eh ea now) tid lim =
      (((save_prediction st tid ht aw lg pr hp dp ap cf eh ea now).filter
        (fun p => p.telegram_id == tid)).reverse).take lim := by
  set r : PredRow :=
    ⟨st.length + 1, tid, ht, aw, lg, pr, hp, dp, ap, cf, eh, ea, now⟩ with hr
  have hsave : save_prediction st tid ht aw lg pr hp dp ap cf eh ea now =
      st ++ [r] := rfl
  have hfr : (fun p : PredRow => p.telegram_id == tid) r = true := by
    rw [hr]
    exact beq_self_eq_true tid
  have hfilter : (st ++ [r]).filter (fun p => p.telegram_id == tid) =
      st.filter (fun p => p.telegram_id == tid) ++ [r] := by
    rw [List.filter_append]
    congr 1
    simp [hr]
  have hfmem : ∀ q ∈ st.filter (fun p => p.telegram_id == tid),
      q.created_at < r.created_at := by
    intro q hq
    exact hfresh q (List.mem_of_mem_filter hq)
  have hford : List.Pairwise (fun p q => p.created_at < q.created_at)
      (st.filter (fun p => p.telegram_id == tid)) :=
    List.Pairwise.filter _ hord
  constructor
  · rw [hsave]
    unfold get_user_predictions
    rw [hfilter, sortByCreatedDesc_append_max _ _ hfmem]
    rfl
  · rw [hsave]
    unfold get_user_predictions
    rw [hfilter, sortByCreatedDesc_append_max _ _ hfmem,
      sortByCreatedDesc_eq_reverse _ hford, List.reverse_append]
    rfl

/-- Witness for C5: on the empty store, appending a row and listing with
limit 1 returns exactly that row, and the general most-recent-first
characterization holds. -/
theorem save_then_list_predictions_witness :
    get_user_predictions
        (save_prediction [] 7 "Inter" "Milan" "SA" "1" 50 20 30 50 2 1 5) 7 1 =
      [⟨1, 7, "Inter", "Milan", "SA", "1", 50, 20, 30, 50, 2, 1, 5⟩] ∧
    get_user_predictions
        (save_prediction [] 7 "Inter" "Milan" "SA" "1" 50 20 30 50 2 1 5) 7 3 =
      (((save_prediction [] 7 "Inter" "Milan" "SA" "1" 50 20 30 50 2 1 5).filter
        (fun p => p.telegram_id == 7)).reverse).take 3 :=
  save_then_list_predictions [] 7 "Inter" "Milan" "SA" "1" 50 20 30 50 2 1 5 3
    (by intro p hp; cases hp) (List.Pairwise.nil)

/- Granting users other than x never makes x allowed. -/
theorem applyGrants_not_mem (st : SimpleUserStorage) (grants : List ℤ) (x : ℤ)
    (hx : x ∉ st.allowed_users) (hg : x ∉ grants) :
    x ∉ (applyGrants st grants).allowed_users := by
  induction grants generalizing st with
  | nil => exact hx
  | cons g gs ih =>
    have hgx : x ≠ g := by
      intro h
      exact hg (h ▸ List.mem_cons_self g gs)
    have hgs : x ∉ gs := fun h => hg (List.mem_cons_of_mem g h)
    show x ∉ (applyGrants (add_user st g).1 gs).allowed_users
    refine ih _ ?_ hgs
    unfold add_user
    split_ifs with hmem
    · exact hx
    · intro h
      rcases List.mem_append.mp h with h' | h'
      · exact hx h'
      · exact hgx (List.mem_singleton.mp h')

/-- C6: in Open mode (`INVITE_ONLY` false) every identity is allowed in
every storage state, regardless of any grant calls; in Gated mode a
non-administrator identity is not allowed before it is granted (for any
sequence of grants to other identities starting from the admin-initialized
storage) and is allowed after `add_user` grants it (in any state). -/
theorem access_gate_modes (st : SimpleUserStorage) (admins grants : List ℤ)
    (x : ℤ) (hadmin : x ∉ admins) (hgrant : x ∉ grants) :
    is_user_allowed false st x = true ∧
    is_user_allowed true (applyGrants (initStorage admins) grants) x = false ∧
    (∀ s : SimpleUserStorage, is_user_allowed true (add_user s x).1 x = true) := by
  refine ⟨rfl, ?_, ?_⟩
  · have hnot : x ∉ (applyGrants (initStorage admins) grants).allowed_users :=
      applyGrants_not_mem (initStorage admins) grants x hadmin hgrant
    unfold is_user_allowed
    rw [if_neg (by simp)]
    exact decide_eq_false hnot
  · intro s
    have hmem : x ∈ (add_user s x).1.allowed_users := by
      unfold add_user
      split_ifs with h
      · exact h
      · exact List.mem_append.mpr (Or.inr (List.mem_singleton.mpr rfl))
    unfold is_user_allowed
    rw [if_neg (by simp)]
    exact decide_eq_true hmem

/-- Witness for C6: admin list [1], grants [2], identity 3. -/
theorem access_gate_modes_witness :
    is_user_allowed false (initStorage [1]) 3 = true ∧
    is_user_allowed true (applyGrants (initStorage [1]) [2]) 3 = false ∧
    (∀ s : SimpleUserStorage, is_user_allowed true (add_user s 3).1 3 = true) :=
  access_gate_modes (initStorage [1]) [1] [2] 3 (by decide) (by decide)

/-- C7 counterexample: the average confidence reported by the statistics
aggregation is NOT the mean of the stored confidences.  With a single
stored prediction of confidence 50 the mean is 50, yet the code reports
the hardcoded 72.5. -/
theorem mystats_avg_not_mean :
    (mystats_summary [sampleRow]).avg_confidence = 145/2 ∧
    meanConfidence [sampleRow] = 50 ∧
    (mystats_summary [sampleRow]).avg_confidence ≠ meanConfidence [sampleRow] := by
  have h1 : (mystats_summary [sampleRow]).avg_confidence = 145/2 := rfl
  have h2 : meanConfidence [sampleRow] = 50 := by
    unfold meanConfidence sampleRow
    norm_num
  refine ⟨h1, h2, ?_⟩
  rw [h1, h2]
  norm_num

/-- C7 amended: `mystats` reports the hardcoded average confidence 72.5
whenever the identity has at least one stored prediction, regardless of
the stored confidences; with no stored history it reports
totalPredictions = 0, averageConfidence = 0 and the Beginner activity
tier. -/
theorem mystats_avg_constant_and_empty (preds : List PredRow)
    (h : preds ≠ []) :
    (mystats_summary preds).avg_confidence = 145/2 ∧
    (mystats_summary []).total_predictions = 0 ∧
    (mystats_summary []).avg_confidence = 0 ∧
    (mystats_summary []).user_level = "⚪ Beginner" := by
  refine ⟨?_, rfl, rfl, rfl⟩
  have hlen : 0 < preds.length := List.length_pos.mpr h
  unfold mystats_summary
  simp only [if_pos hlen]

/-- Witness for C7 (amended) at the single-row store. -/
theorem mystats_avg_constant_and_empty_witness :
    (mystats_summary [sampleRow]).avg_confidence = 145/2 ∧
    (mystats_summary []).total_predictions = 0 ∧
    (mystats_summary []).avg_confidence = 0 ∧
    (mystats_summary []).user_level = "⚪ Beginner" :=
  mystats_avg_constant_and_empty [sampleRow] (by simp)
